import Mathlib

/-!
# Verification of the Ollama/Gemini Code Analyzer front-end

This development gives a shallow embedding, over `List Char`, of the string
processing logic of the repository: the prompt builder
(`createCodeExecutionAndReviewPrompt`), the two response parsers (the
structured-tool Gemini `runCode` and the freeform-JSON Ollama `runCode`),
the Ollama transport error classification (`callOllama`), the save/load
session snapshot, the copy-to-clipboard fence stripping in `renderCard`,
the auto-detect guard (`handleAutoDetect`) and the input-validation gate of
`handleCodeExecution`.

JavaScript strings are modelled as `List Char`; the JavaScript regular
expressions appearing in the source are fixed literal patterns, and each is
embedded as the concrete matching function it denotes (leftmost match,
greedy `\s*`, lazy `[\s\S]*?`, anchors `^`/`$` without the `m` flag).
-/

namespace Analyzer

/-- JavaScript strings, modelled as lists of characters. -/
abbrev Str := List Char

/-- The character class `\s` of JavaScript regular expressions (and the set
trimmed by `String.prototype.trim`), restricted to the ASCII whitespace
characters that can occur in the data handled by this program. -/
def jsWhitespace (c : Char) : Bool :=
  c = ' ' || c = '\t' || c = '\n' || c = '\r' || c = '\x0b' || c = '\x0c'

/-- Model of `String.prototype.trim()`: remove leading and trailing whitespace. -/
def trimStr (s : Str) : Str :=
  ((s.dropWhile jsWhitespace).reverse.dropWhile jsWhitespace).reverse

/-- Index of the leftmost occurrence of `pat` in `s` (the position at which a
JavaScript regex whose pattern begins with the literal `pat` starts
matching), or `none` when `pat` does not occur. -/
def findSub (pat : Str) : Str → Option Nat
  | [] => if List.isPrefixOf pat [] then some 0 else none
  | c :: rest =>
    if List.isPrefixOf pat (c :: rest) then some 0
    else (findSub pat rest).map (· + 1)

/-- Model of `haystack.includes(pat)`: whether `pat` occurs as a contiguous substring. -/
def containsSub (pat s : Str) : Bool :=
  (findSub pat s).isSome

end Analyzer

namespace Analyzer.Gemini

/-! ## The structured-tool (Gemini) backend: `src/gemini.ts` and `src/prompts.ts` -/

/-- The `Outcome` enum of `@google/genai` accompanying a code execution
result part. -/
inductive Outcome where
  | OUTCOME_UNSPECIFIED
  | OUTCOME_OK
  | OUTCOME_FAILED
  | OUTCOME_DEADLINE_EXCEEDED
  deriving DecidableEq

/-- One part of `response.candidates[0].content.parts`: either a
`codeExecutionResult` part (outcome flag plus output text) or a `text` part. -/
inductive Part where
  | codeExecutionResult (outcome : Outcome) (output : Str)
  | text (t : Str)

/-- Discriminator for `codeExecutionResult` parts. -/
def Part.isExecResult : Part → Bool
  | .codeExecutionResult _ _ => true
  | .text _ => false

/-- The mutable state of the parts loop of `runCode`: `result.stdout`,
`result.stderr`, and the accumulated `textParts`. -/
structure PartsAcc where
  stdout : Option Str
  stderr : Option Str
  text : Str
  deriving DecidableEq

/-- One iteration of the `for (const part of ...)` loop of `runCode`:
a code-execution-result part stores its output under `stderr` when the
outcome differs from `OUTCOME_OK` and under `stdout` otherwise; a (truthy)
text part is appended to `textParts`. -/
def collectStep (acc : PartsAcc) : Part → PartsAcc
  | .codeExecutionResult outcome output =>
    if outcome ≠ Outcome.OUTCOME_OK then { acc with stderr := some output }
    else { acc with stdout := some output }
  | .text t => if !t.isEmpty then { acc with text := acc.text ++ t } else acc

/-- The whole parts loop of `runCode`. -/
def collectParts (parts : List Part) : PartsAcc :=
  parts.foldl collectStep { stdout := none, stderr := none, text := [] }

/-- The literal heading that anchors `testResultsRegex`. -/
def testResultsHeading : Str := "### Test Results".data

/-- The first alternative `\n###` of the terminator of `testResultsRegex`. -/
def headingTerm : Str := "\n###".data

/-- The literal `\n` followed by three backticks: the second terminator
alternative of `testResultsRegex`, and the closing fence of
`codeBlockRegex`. -/
def closeFence : Str := "\n```".data

/-- The lazy capture `([\s\S]*?)(?:\n###|\n\x60\x60\x60|$)` of
`testResultsRegex`, run after the heading and the greedy `\s*`: the group
grows one character at a time until one of the two literal terminators
matches (which the non-capturing group then consumes) or the end of the
string is reached.  Returns the captured group and the text left after the
whole match. -/
def scanSectionBody : Str → Str × Str
  | [] => ([], [])
  | c :: rest =>
    if List.isPrefixOf headingTerm (c :: rest) then ([], (c :: rest).drop 4)
    else if List.isPrefixOf closeFence (c :: rest) then ([], (c :: rest).drop 4)
    else
      let (g, r) := scanSectionBody rest
      (c :: g, r)

/-- The leftmost match of
`testResultsRegex = /### Test Results\s*([\s\S]*?)(?:\n###|\n\x60\x60\x60|$)/`
on `s`.  The regex starts with the literal heading, so the match starts at
its leftmost occurrence; since the terminator includes `$`, the rest of the
pattern always succeeds there, with `\s*` taking the maximal whitespace run.
Returns `(before, group1, after)` where `before` is the text preceding the
match and `after` the text following it (so `before ++ after` is the result
of `textParts.replace(testResultsRegex, '')`). -/
def matchTestResults (s : Str) : Option (Str × Str × Str) :=
  match findSub testResultsHeading s with
  | none => none
  | some i =>
    let body := (s.drop (i + testResultsHeading.length)).dropWhile jsWhitespace
    some (s.take i, (scanSectionBody body).1, (scanSectionBody body).2)

/-- The opening fence `\x60\x60\x60language\n` of `codeBlockRegex`
(`language` is interpolated literally; every language the app offers is
alphanumeric, so the regex treats it as a literal). -/
def openFence (language : Str) : Str := "```".data ++ language ++ "\n".data

/-- The lazy capture `([\s\S]*?)` of `codeBlockRegex` followed by the
closing fence: the group grows until `\n\x60\x60\x60` matches; `none` when
no closing fence follows. -/
def scanToClose : Str → Option Str
  | [] => none
  | c :: rest =>
    if List.isPrefixOf closeFence (c :: rest) then some []
    else (scanToClose rest).map (c :: ·)

/-- Group 1 of the leftmost match of
`codeBlockRegex = new RegExp('\x60\x60\x60' + language + '\\n([\\s\\S]*?)\\n\x60\x60\x60')`,
combined with the `match && match[1]` truthiness test guarding
`result.suggestion = match[1]` (an empty group is falsy). -/
def extractCodeBlock (language s : Str) : Option Str :=
  match findSub (openFence language) s with
  | none => none
  | some i =>
    match scanToClose (s.drop (i + (openFence language).length)) with
    | none => none
    | some g => if g.isEmpty then none else some g

/-- The `if (textParts) { ... }` block of `runCode`: extract and remove the
test-results section first (only when group 1 is truthy), then search the
remaining text for a fenced code block.  Returns
`(testResults?, suggestion?, final textParts)`. -/
def textPhase (language t0 : Str) : Option Str × Option Str × Str :=
  if t0.isEmpty then (none, none, t0)
  else
    match matchTestResults t0 with
    | some (p, g, r) =>
      if !g.isEmpty then
        let t1 := trimStr (p ++ r)
        (some (trimStr g), extractCodeBlock language t1, t1)
      else (none, extractCodeBlock language t0, t0)
    | none => (none, extractCodeBlock language t0, t0)

/-- The structured response assembled by `runCode`; absent fields model
`undefined`. -/
structure GeminiResponse where
  stdout : Option Str
  stderr : Option Str
  suggestion : Option Str
  testResults : Option Str
  deriving DecidableEq

/-- The parsing logic of the Gemini `runCode` (non-markdown path): fold the
reply parts, run the free-text extraction, then apply the fallback that
assigns the leftover text to `stdout` when no structured part matched and no
suggestion was captured. -/
def runCode (language : Str) (parts : List Part) : GeminiResponse :=
  let acc := collectParts parts
  let (tr, sug, t1) := textPhase language acc.text
  let out :=
    if acc.stdout = none ∧ acc.stderr = none ∧ t1 ≠ [] ∧ sug = none then some t1
    else acc.stdout
  { stdout := out, stderr := acc.stderr, suggestion := sug, testResults := tr }

/-! ### The prompt builder `createCodeExecutionAndReviewPrompt` -/

/-- The truthiness test `tests && tests.trim()` guarding every test-related
piece of the prompt. -/
def hasTests : Option Str → Bool
  | none => false
  | some t => !t.isEmpty && !(trimStr t).isEmpty

/-- The opening template literal of the prompt (instruction 1 is always
present). -/
def promptIntro (language : Str) : Str :=
  "\nAnalyze and execute the following ".data ++ language ++
  " code.\n\n**Instructions:**\n\n1.  **Execute the code:** Run the code and provide the standard output or standard error.\n".data

/-- The instructions appended when tests are supplied (instructions 2-5). -/
def testInstructions : Str :=
  "\n2.  **Run Unit Tests:** After the initial execution, run the provided unit tests against the code. For Python, assume standard testing libraries like `unittest` are available. For JavaScript, assume a simple `assert` function is available.\n3.  **Format Test Results:** Report the test results in a dedicated markdown section starting with the heading \"### Test Results\". On the first line of this section, provide a summary (e.g., \"Passed: 2/3\"). Then, list each test case on a new line, starting with \"PASS:\" for successful tests or \"FAIL:\" for failed tests, followed by a brief explanation.\n4.  **Review the code:** After execution and testing, analyze the code for bugs, improvements, or alternative approaches.\n5.  **Provide suggestions:** If you find areas for improvement, provide a corrected or enhanced version of the code inside a markdown code block. Ensure the suggested code is well-formatted according to standard style guides (e.g., PEP 8 for Python, Prettier for JavaScript). If the code is already perfect, state that no changes are needed.\n".data

/-- The instructions appended when no tests are supplied (instructions 2-3,
containing no test-related text). -/
def reviewInstructions : Str :=
  "\n2.  **Review the code:** After execution, analyze the code for any of the following:\n    *   Bugs or potential errors.\n    *   Opportunities for improvement (e.g., performance, readability, best practices).\n    *   Enhancements or alternative approaches.\n3.  **Provide suggestions:** If you find any areas for improvement, provide a corrected or enhanced version of the code inside a markdown code block. Ensure the suggested code is well-formatted according to standard style guides (e.g., PEP 8 for Python, Prettier for JavaScript). If the code is already perfect, state that no changes are needed.\n".data

/-- The section embedding the user's code in a fence tagged with the
language (always present). -/
def codeSection (language code : Str) : Str :=
  "\n**Code to Execute and Review:**\n\n```".data ++ language ++ "\n".data ++
  code ++ "\n```\n".data

/-- The section embedding the tests in a second fence tagged with the
language (appended only when tests are supplied). -/
def unitTestsSection (language tests : Str) : Str :=
  "\n**Unit Tests to Run:**\n\n```".data ++ language ++ "\n".data ++
  tests ++ "\n```\n".data

/-- Model of `createCodeExecutionAndReviewPrompt(language, code, tests?)`: the prompt
is assembled from the intro, one of the two instruction blocks, the code
section, and (when tests are supplied) the unit-tests section. -/
def createCodeExecutionAndReviewPrompt (language code : Str)
    (tests : Option Str) : Str :=
  promptIntro language ++
  (if hasTests tests then testInstructions else reviewInstructions) ++
  codeSection language code ++
  (if hasTests tests then unitTestsSection language (tests.getD []) else [])

end Analyzer.Gemini

namespace Analyzer.Ollama

/-! ## The freeform-JSON (Ollama) backend: `src/ollama variant of gemini.ts` -/

/-- The fixed local daemon host. -/
def OLLAMA_HOST : Str := "http://localhost:11434".data

/-- A thrown JavaScript value: whether it is an `Error` instance (the
`instanceof Error` test of the catch block) and its `message`. -/
structure Thrown where
  isError : Bool
  message : Str
  deriving DecidableEq

/-- The `GeminiResponse` interface of the Ollama variant: all four fields
optional (the model may omit any key from its JSON reply). -/
structure GeminiResponse where
  stdout : Option Str
  stderr : Option Str
  suggestion : Option Str
  testResults : Option Str
  deriving DecidableEq

/-- The envelope obtained from `response.json()`: the optional `error`
field, and the outcome of `JSON.parse(data.response)` (a `SyntaxError`
message, or the parsed reply object). -/
structure ResponseData where
  error : Option Str
  response : Except Str GeminiResponse

/-- The behaviour of the single `fetch` call of `callOllama`: the promise
either rejects with a thrown value (a network-level failure) or resolves to
a response with `ok`/`status`/`statusText` and a JSON body. -/
inductive FetchResult where
  | reject (e : Thrown)
  | resolve (ok : Bool) (status : Nat) (statusText : Str) (data : ResponseData)

/-- The translated unreachable-backend message. -/
def connectMessage : Str :=
  "Could not connect to Ollama. Please ensure Ollama is running and accessible at ".data
  ++ OLLAMA_HOST

/-- The message of the error thrown on a non-success HTTP status. -/
def statusMessage (status : Nat) (statusText : Str) : Str :=
  "Ollama API responded with status ".data ++ (Nat.repr status).data ++
  ": ".data ++ statusText

/-- The message of the error thrown when the envelope carries an `error`
field. -/
def apiErrorMessage (err : Str) : Str := "Ollama API error: ".data ++ err

/-- Model of `return JSON.parse(data.response)`: a parse failure throws a
`SyntaxError` (an `Error` instance). -/
def parsePhase (data : ResponseData) : Except Thrown GeminiResponse :=
  match data.response with
  | .ok v => .ok v
  | .error m => .error ⟨true, m⟩

/-- The `try` body of `callOllama`: a rejected fetch propagates its thrown
value; `!response.ok` throws the status error; a truthy `data.error` throws
the API error; otherwise the inner JSON payload is parsed. -/
def tryBody : FetchResult → Except Thrown GeminiResponse
  | .reject e => .error e
  | .resolve ok status statusText data =>
    if !ok then .error ⟨true, statusMessage status statusText⟩
    else
      match data.error with
      | some m =>
        if !m.isEmpty then .error ⟨true, apiErrorMessage m⟩ else parsePhase data
      | none => parsePhase data

/-- Model of `callOllama` with its catch block: an `Error` whose message contains
`'fetch'` is replaced by the unreachable-Ollama error; every other thrown
value is re-thrown unchanged. -/
def callOllama (f : FetchResult) : Except Thrown GeminiResponse :=
  match tryBody f with
  | .ok v => .ok v
  | .error e =>
    if e.isError && containsSub "fetch".data e.message then
      .error ⟨true, connectMessage⟩
    else .error e

/-- The record returned by the Ollama `runCode`: all four fields are plain
strings. -/
structure RunCodeResult where
  stdout : Str
  stderr : Str
  suggestion : Str
  testResults : Str
  deriving DecidableEq

/-- Evaluation of `x || ''` on a string-or-undefined value. -/
def jsOrEmpty : Option Str → Str
  | some s => if s.isEmpty then [] else s
  | none => []

/-- The Ollama `runCode`: call the transport, then copy the four fields
through with empty-string defaults (`response.stdout || ''`, etc.). -/
def runCode (f : FetchResult) : Except Thrown RunCodeResult :=
  match callOllama f with
  | .error e => .error e
  | .ok response =>
    .ok { stdout := jsOrEmpty response.stdout
          stderr := jsOrEmpty response.stderr
          suggestion := jsOrEmpty response.suggestion
          testResults := jsOrEmpty response.testResults }

end Analyzer.Ollama

namespace Analyzer.UI

/-! ## The renderer: `src/ui.ts` -/

/-- The clipboard text computed by the copy-button handler of `renderCard`:
`rawContent.replace(new RegExp('^\x60\x60\x60' + language + '\\n|\n\x60\x60\x60$', 'g'), '')`.
Without the `m` flag, `^` matches only at the start and `$` only at the end,
so the regex (with the `g` flag) removes an opening fence marker at the very
start and a closing marker at the very end; the two matches must not
overlap, which the suffix test on the remaining text enforces. -/
def renderCardCopyText (language rawContent : Str) : Str :=
  let op := "```".data ++ language ++ "\n".data
  let cl := "\n```".data
  let afterOpen :=
    if List.isPrefixOf op rawContent then rawContent.drop op.length else rawContent
  if List.isSuffixOf cl afterOpen then afterOpen.take (afterOpen.length - cl.length)
  else afterOpen

end Analyzer.UI

namespace Analyzer.App

/-! ## Orchestration: `src/index.tsx` -/

/-- The editor state visible to Save/Load: the two text areas, the language
selector value, and whether the test panel is shown
(`testInputContainer.style.display !== 'none'`). -/
structure EditorState where
  code : Str
  tests : Str
  language : Str
  testsVisible : Bool
  deriving DecidableEq

/-- The session snapshot serialized under `geminiCodeExecution.savedState`.
`JSON.stringify`/`JSON.parse` of this flat record of strings and a boolean
is lossless, so the stored JSON text is modelled by the record itself. -/
structure SavedState where
  code : Str
  tests : Str
  language : Str
  testsVisible : Bool
  deriving DecidableEq

/-- Model of `handleSaveCode`: snapshot the four fields into local storage. -/
def handleSaveCode (s : EditorState) : SavedState :=
  { code := s.code, tests := s.tests, language := s.language,
    testsVisible := s.testsVisible }

/-- Model of `handleLoadCode`: with no snapshot present the state is unchanged (an
alert is shown); otherwise the fields are restored with the `|| ''` /
`|| 'python'` defaults and the panel visibility is set from
`savedState.testsVisible`.  (The trailing `handleLanguageChange()` call
only updates placeholders and button labels, none of these four fields.) -/
def handleLoadCode (storage : Option SavedState) (current : EditorState) :
    EditorState :=
  match storage with
  | none => current
  | some saved =>
    { code := if saved.code.isEmpty then [] else saved.code
      tests := if saved.tests.isEmpty then [] else saved.tests
      language := if saved.language.isEmpty then "python".data else saved.language
      testsVisible := saved.testsVisible }

/-- The result of `hljs.highlightAuto`: the detected language (possibly
undefined) and its relevance score. -/
structure DetectResult where
  language : Option Str
  relevance : Int

/-- Model of `handleAutoDetect`: return (leaving the selector unchanged) when the
trimmed code is shorter than 20 characters; otherwise switch the selector
to a truthy detected language of relevance above 10 that differs from the
current selection.  `highlightAuto` abstracts the external detector. -/
def handleAutoDetect (highlightAuto : Str → DetectResult)
    (code currentLanguage : Str) : Str :=
  if (trimStr code).length < 20 then currentLanguage
  else
    let result := highlightAuto code
    match result.language with
    | some l =>
      if l ≠ [] ∧ result.relevance > 10 ∧ currentLanguage ≠ l then l
      else currentLanguage
    | none => currentLanguage

/-- One card appended to the results container. -/
structure RenderedCard where
  title : Str
  content : Str
  isError : Bool
  deriving DecidableEq

/-- The observable outcome of `handleCodeExecution`: the cards rendered into
the results container, and whether `runCode` (the network call) was
invoked. -/
structure ExecOutcome where
  cards : List RenderedCard
  calledApi : Bool
  deriving DecidableEq

/-- A markdown fence wrapper as built inline by `handleCodeExecution`
(`'\x60\x60\x60' + language + '\n' + text + '\n\x60\x60\x60'`). -/
def fenced (language content : Str) : Str :=
  "```".data ++ language ++ "\n".data ++ content ++ "\n```".data

/-- Truthiness of an optional string field of the parsed result. -/
def optTruthy : Option Str → Bool
  | some s => !s.isEmpty
  | none => false

/-- Model of `handleCodeExecution`: empty (whitespace-only) code is rejected with an
inline `Input Error` card before `runCode` is called; otherwise the API is
called and the result cards are rendered in source order, with the
`Model Response` placeholder when no field produced output, and an
`API Error` card when the call throws. -/
def handleCodeExecution (api : Except Str Gemini.GeminiResponse)
    (code language tests : Str) : ExecOutcome :=
  if (trimStr code).isEmpty then
    { cards := [⟨"Input Error".data,
        "Please enter some ".data ++ language ++ " content to process.".data,
        true⟩],
      calledApi := false }
  else
    match api with
    | .error msg =>
      { cards := [⟨"API Error".data, "An error occurred: ".data ++ msg, true⟩],
        calledApi := true }
    | .ok result =>
      let cards := [⟨"Submitted Code".data, fenced language code, false⟩]
      let cards := cards ++
        (if !(trimStr tests).isEmpty then
          [⟨"Submitted Tests".data, fenced language tests, false⟩] else [])
      let cards := cards ++
        (if optTruthy result.testResults then
          [⟨"Test Results".data, result.testResults.getD [], false⟩] else [])
      let cards := cards ++
        (if optTruthy result.stderr then
          [⟨"Debug Output".data, fenced [] (result.stderr.getD []), true⟩] else [])
      let cards := cards ++
        (if optTruthy result.stdout then
          [⟨"Execution Result".data, fenced [] (result.stdout.getD []), false⟩] else [])
      let cards := cards ++
        (if optTruthy result.suggestion then
          [⟨"Suggested Code".data, fenced language (result.suggestion.getD []), false⟩] else [])
      let hasOutput := optTruthy result.testResults || optTruthy result.stderr ||
        optTruthy result.stdout || optTruthy result.suggestion
      let cards := cards ++
        (if !hasOutput then
          [⟨"Model Response".data,
            "The code executed without producing any output, and no suggestions were provided.".data,
            false⟩] else [])
      { cards := cards, calledApi := true }

/-- The tests argument computed by the Execute button click handler:
`testInputContainer.style.display === 'none' ? '' : testInput.value`. -/
def executeClickTests (testContainerDisplay testInputValue : Str) : Str :=
  if testContainerDisplay = "none".data then [] else testInputValue

end Analyzer.App

namespace Analyzer

/-! ## Helper lemmas on the string model -/

theorem trimStr_length_le (s : Str) : (trimStr s).length ≤ s.length := by
  have h1 : (s.dropWhile jsWhitespace).length ≤ s.length :=
    (List.dropWhile_sublist _).length_le
  have h2 : ((s.dropWhile jsWhitespace).reverse.dropWhile jsWhitespace).length ≤
      (s.dropWhile jsWhitespace).reverse.length :=
    (List.dropWhile_sublist _).length_le
  simpa [trimStr] using le_trans h2 (by simpa using h1)

theorem trimStr_eq_nil_of_all (s : Str) (h : s.all jsWhitespace = true) :
    trimStr s = [] := by
  have : s.dropWhile jsWhitespace = [] := by
    rw [List.dropWhile_eq_nil_iff]
    intro x hx
    exact List.all_eq_true.mp h x hx
  simp [trimStr, this]

theorem findSub_isSome_of_isPrefixOf (pat s : Str)
    (h : List.isPrefixOf pat s = true) : (findSub pat s).isSome = true := by
  cases s <;> simp [findSub, h]

theorem findSub_isSome_append (pat a s : Str)
    (h : (findSub pat s).isSome = true) :
    (findSub pat (a ++ s)).isSome = true := by
  induction a with
  | nil => simpa using h
  | cons c a ih =>
    show (findSub pat (c :: (a ++ s))).isSome = true
    by_cases hp : List.isPrefixOf pat (c :: (a ++ s)) = true
    · simp [findSub, hp]
    · simp [findSub, hp, Option.isSome_map]
      exact ih

theorem containsSub_decomp (pat a b : Str) :
    containsSub pat (a ++ (pat ++ b)) = true := by
  apply findSub_isSome_append
  apply findSub_isSome_of_isPrefixOf
  rw [List.isPrefixOf_iff_prefix]
  exact List.prefix_append _ _

theorem collectParts_no_exec (parts : List Gemini.Part)
    (h : parts.all (fun p => !p.isExecResult) = true) :
    (Gemini.collectParts parts).stdout = none ∧
      (Gemini.collectParts parts).stderr = none := by
  suffices H : ∀ (ps : List Gemini.Part) (acc : Gemini.PartsAcc),
      ps.all (fun p => !p.isExecResult) = true →
      acc.stdout = none → acc.stderr = none →
      (ps.foldl Gemini.collectStep acc).stdout = none ∧
        (ps.foldl Gemini.collectStep acc).stderr = none by
    exact H parts _ h rfl rfl
  intro ps
  induction ps with
  | nil => exact fun acc _ h1 h2 => ⟨h1, h2⟩
  | cons p ps ih =>
    intro acc hall h1 h2
    rw [List.all_cons, Bool.and_eq_true] at hall
    cases p with
    | codeExecutionResult oc out => simp [Gemini.Part.isExecResult] at hall
    | text t =>
      refine ih (Gemini.collectStep acc (.text t)) hall.2 ?_ ?_ <;>
        by_cases ht : t.isEmpty = true <;> simp [Gemini.collectStep, ht, h1, h2]

theorem jsOrEmpty_eq_getD (x : Option Str) : Ollama.jsOrEmpty x = x.getD [] := by
  cases x with
  | none => rfl
  | some s => cases s <;> rfl

/-! ## Claim theorems -/

/-- **C4.** For the freeform-JSON (Ollama) backend `runCode`: for every
reply that parses as a JSON object, the returned record has all four fields
`stdout`, `stderr`, `suggestion`, `testResults` defined as (non-optional)
strings, with the empty string substituted for any missing key. -/
theorem c4_ollama_runCode_empty_string_defaults
    (f : Ollama.FetchResult) (r : Ollama.GeminiResponse)
    (h : Ollama.callOllama f = .ok r) :
    Ollama.runCode f = .ok
      { stdout := r.stdout.getD [], stderr := r.stderr.getD [],
        suggestion := r.suggestion.getD [], testResults := r.testResults.getD [] } := by
  simp [Ollama.runCode, h, jsOrEmpty_eq_getD]

/-- Witness for C4: the reply with all four fields present and empty yields
all four fields equal to the empty string, not absent. -/
theorem c4_witness :
    Ollama.runCode (.resolve true 200 "OK".data
      { error := none, response := .ok ⟨some [], some [], some [], some []⟩ }) =
      .ok { stdout := [], stderr := [], suggestion := [], testResults := [] } :=
  c4_ollama_runCode_empty_string_defaults _ ⟨some [], some [], some [], some []⟩ rfl

/-- **C5.** Round-trip: for every editor state whose selected language is a
real selector option (a non-empty string), `handleSaveCode` followed
immediately by `handleLoadCode` restores code, tests, language, and
test-panel visibility to exactly the values present at save time,
regardless of the editor state at load time. -/
theorem c5_save_load_round_trip (s current : App.EditorState)
    (h : s.language ≠ []) :
    App.handleLoadCode (some (App.handleSaveCode s)) current = s := by
  obtain ⟨c, t, l, v⟩ := s
  have hl : l.isEmpty = false := by
    simp only [List.isEmpty_eq_false]
    exact h
  have hc : (if c.isEmpty = true then ([] : Str) else c) = c := by cases c <;> rfl
  have ht : (if t.isEmpty = true then ([] : Str) else t) = t := by cases t <;> rfl
  simp [App.handleSaveCode, App.handleLoadCode, hl, hc, ht]

/-- Witness for C5 at a concrete editor state. -/
theorem c5_witness :
    App.handleLoadCode
      (some (App.handleSaveCode
        ⟨"print(1)".data, "assert True".data, "python".data, true⟩))
      ⟨[], [], "javascript".data, false⟩ =
      ⟨"print(1)".data, "assert True".data, "python".data, true⟩ :=
  c5_save_load_round_trip _ _ (by decide)

/-- **C8.** For every code input shorter than the fixed 20-character
threshold, the auto-detection handler leaves the language selector
unchanged, regardless of what the detector would report. -/
theorem c8_autodetect_short_input (highlightAuto : Str → App.DetectResult)
    (code currentLanguage : Str) (h : code.length < 20) :
    App.handleAutoDetect highlightAuto code currentLanguage = currentLanguage := by
  have hlt : (trimStr code).length < 20 := lt_of_le_of_lt (trimStr_length_le code) h
  simp [App.handleAutoDetect, hlt]

/-- Witness for C8: a 5-character input with a maximally confident detector
reporting a different language still leaves the selector unchanged. -/
theorem c8_witness :
    App.handleAutoDetect (fun _ => ⟨some "python".data, 100⟩) "x = 1".data
      "javascript".data = "javascript".data :=
  c8_autodetect_short_input _ _ _ (by decide)

/-- **C9.** For every code string that is empty or whitespace-only,
`handleCodeExecution` rejects it locally: the only rendered card is the
inline `Input Error` card and the API call never happens. -/
theorem c9_empty_code_rejected (api : Except Str Gemini.GeminiResponse)
    (code language tests : Str) (h : code.all jsWhitespace = true) :
    App.handleCodeExecution api code language tests =
      { cards := [⟨"Input Error".data,
          "Please enter some ".data ++ language ++ " content to process.".data,
          true⟩],
        calledApi := false } := by
  have ht : trimStr code = [] := trimStr_eq_nil_of_all code h
  simp [App.handleCodeExecution, ht]

/-- Witness for C9 at whitespace-only code. -/
theorem c9_witness :
    App.handleCodeExecution (.ok ⟨none, none, none, none⟩) "  \n ".data
      "python".data [] =
      { cards := [⟨"Input Error".data,
          "Please enter some ".data ++ "python".data ++ " content to process.".data,
          true⟩],
        calledApi := false } :=
  c9_empty_code_rejected _ _ _ _ (by decide)

/-- **C10.** When the test input panel is hidden (its display style is
`'none'`) at the moment Execute is clicked, the click handler passes the
empty string as the tests argument no matter what text remains in the
hidden test editor, and the resulting prompt is exactly the no-tests prompt
(no test instructions, no second fence). -/
theorem c10_hidden_tests_ignored (testInputValue code language : Str) :
    App.executeClickTests "none".data testInputValue = [] ∧
    Gemini.createCodeExecutionAndReviewPrompt language code
        (some (App.executeClickTests "none".data testInputValue)) =
      Gemini.promptIntro language ++ Gemini.reviewInstructions ++
        Gemini.codeSection language code := by
  have he : App.executeClickTests "none".data testInputValue = [] := by
    simp [App.executeClickTests]
  refine ⟨he, ?_⟩
  rw [he]
  simp [Gemini.createCodeExecutionAndReviewPrompt, Gemini.hasTests]

/-- **C2.** For every language and code: when the tests argument is absent,
empty, or whitespace-only, the generated prompt is exactly the no-tests
prompt (the test instructions and the second fence are omitted entirely:
`promptIntro` and `reviewInstructions` and `codeSection` contain no
test-related instruction text and only the single code fence); when tests
are non-empty, the prompt is the with-tests prompt and contains the test
text verbatim inside a second fence tagged with the language. -/
theorem c2_prompt_tests_sections (language code : Str) (tests : Option Str) :
    ((tests = none ∨ ∃ t, tests = some t ∧ trimStr t = []) →
      Gemini.createCodeExecutionAndReviewPrompt language code tests =
        Gemini.promptIntro language ++ Gemini.reviewInstructions ++
          Gemini.codeSection language code) ∧
    (∀ t, tests = some t → trimStr t ≠ [] →
      Gemini.createCodeExecutionAndReviewPrompt language code tests =
        Gemini.promptIntro language ++ Gemini.testInstructions ++
          Gemini.codeSection language code ++ Gemini.unitTestsSection language t ∧
      containsSub ("```".data ++ language ++ "\n".data ++ t ++ "\n```".data)
        (Gemini.createCodeExecutionAndReviewPrompt language code tests) = true) := by
  constructor
  · intro hcase
    have hfalse : Gemini.hasTests tests = false := by
      rcases hcase with h | ⟨t, rfl, htr⟩
      · rw [h]; rfl
      · simp [Gemini.hasTests, htr]
    simp [Gemini.createCodeExecutionAndReviewPrompt, hfalse]
  · intro t hsome htr
    subst hsome
    have htne : t ≠ [] := by
      intro hnil
      subst hnil
      exact htr rfl
    have htrue : Gemini.hasTests (some t) = true := by
      simp [Gemini.hasTests, List.isEmpty_eq_false, htne, htr]
    have heq : Gemini.createCodeExecutionAndReviewPrompt language code (some t) =
        Gemini.promptIntro language ++ Gemini.testInstructions ++
          Gemini.codeSection language code ++ Gemini.unitTestsSection language t := by
      simp [Gemini.createCodeExecutionAndReviewPrompt, htrue]
    refine ⟨heq, ?_⟩
    have hshape : Gemini.createCodeExecutionAndReviewPrompt language code (some t) =
        (Gemini.promptIntro language ++ Gemini.testInstructions ++
          Gemini.codeSection language code ++ "\n**Unit Tests to Run:**\n\n".data) ++
        (("```".data ++ language ++ "\n".data ++ t ++ "\n```".data) ++ "\n".data) := by
      rw [heq]
      simp [Gemini.unitTestsSection, List.append_assoc]
    rw [hshape]
    exact containsSub_decomp _ _ _

/-- Witness for C2: both branches at concrete inputs; the with-tests prompt
contains the tests verbatim in a second tagged fence. -/
theorem c2_witness :
    Gemini.createCodeExecutionAndReviewPrompt "python".data "print(1)".data none =
      Gemini.promptIntro "python".data ++ Gemini.reviewInstructions ++
        Gemini.codeSection "python".data "print(1)".data ∧
    containsSub ("```".data ++ "python".data ++ "\n".data ++ "assert True".data ++
        "\n```".data)
      (Gemini.createCodeExecutionAndReviewPrompt "python".data "print(1)".data
        (some "assert True".data)) = true :=
  ⟨(c2_prompt_tests_sections "python".data "print(1)".data none).1 (Or.inl rfl),
   ((c2_prompt_tests_sections "python".data "print(1)".data
      (some "assert True".data)).2 "assert True".data rfl (by decide)).2⟩

/-- **C6.** The copy-button text of `renderCard` equals `rawContent` with
exactly a leading fence marker and a trailing fence marker removed, and is
otherwise identical: with neither marker present the text is unchanged;
with both markers present exactly the two markers are removed; with only
one marker present only it is removed. -/
theorem c6_copy_strips_fence_markers (language raw : Str) :
    (List.isPrefixOf ("```".data ++ language ++ "\n".data) raw = false →
      List.isSuffixOf "\n```".data raw = false →
      UI.renderCardCopyText language raw = raw) ∧
    (∀ core, raw = ("```".data ++ language ++ "\n".data) ++ core ++ "\n```".data →
      UI.renderCardCopyText language raw = core) ∧
    (∀ core, raw = ("```".data ++ language ++ "\n".data) ++ core →
      List.isSuffixOf "\n```".data core = false →
      UI.renderCardCopyText language raw = core) ∧
    (∀ core, raw = core ++ "\n```".data →
      List.isPrefixOf ("```".data ++ language ++ "\n".data) raw = false →
      UI.renderCardCopyText language raw = core) := by
  refine ⟨?_, ?_, ?_, ?_⟩
  · intro h1 h2
    simp only [UI.renderCardCopyText, h1, Bool.false_eq_true, if_false, h2]
  · intro core hraw
    subst hraw
    set op := "```".data ++ language ++ "\n".data with hop
    have hp : List.isPrefixOf op (op ++ core ++ "\n```".data) = true := by
      rw [List.isPrefixOf_iff_prefix, List.append_assoc]
      exact List.prefix_append _ _
    have hd : (op ++ core ++ "\n```".data).drop op.length = core ++ "\n```".data := by
      rw [List.append_assoc]
      exact List.drop_left _ _
    have hs : List.isSuffixOf "\n```".data (core ++ "\n```".data) = true := by
      rw [List.isSuffixOf_iff_suffix]
      exact List.suffix_append _ _
    simp only [UI.renderCardCopyText, ← hop, hp, if_true, hd, hs]
    rw [List.length_append, Nat.add_sub_cancel, List.take_left]
  · intro core hraw h2
    subst hraw
    set op := "```".data ++ language ++ "\n".data with hop
    have hp : List.isPrefixOf op (op ++ core) = true := by
      rw [List.isPrefixOf_iff_prefix]
      exact List.prefix_append _ _
    have hd : (op ++ core).drop op.length = core :=
      List.drop_left _ _
    simp only [UI.renderCardCopyText, ← hop, hp, if_true, hd, h2, Bool.false_eq_true,
      if_false]
  · intro core hraw h1
    subst hraw
    have hs : List.isSuffixOf "\n```".data (core ++ "\n```".data) = true := by
      rw [List.isSuffixOf_iff_suffix]
      exact List.suffix_append _ _
    simp only [UI.renderCardCopyText, h1, Bool.false_eq_true, if_false, hs, if_true]
    rw [List.length_append, Nat.add_sub_cancel, List.take_left]

/-- Witness for C6: a fully fenced raw content loses exactly its two
markers, and an unfenced one is copied unchanged. -/
theorem c6_witness :
    UI.renderCardCopyText "python".data "```python\nprint(1)\n```".data =
      "print(1)".data ∧
    UI.renderCardCopyText "python".data "print(1)".data = "print(1)".data :=
  ⟨(c6_copy_strips_fence_markers "python".data _).2.1 "print(1)".data (by decide),
   (c6_copy_strips_fence_markers "python".data _).1 (by decide) (by decide)⟩

set_option maxRecDepth 10000 in
/-- Counterexample for **C7** as stated: a non-success HTTP status whose
status text contains the letters `fetch` does not raise an error carrying
the status — the thrown status error matches the message-based fetch
classifier of the catch block and is replaced by the unreachable-Ollama
message, which mentions no status. -/
theorem c7_counterexample :
    Ollama.callOllama (.resolve false 500 "prefetch failed".data
      { error := none, response := .error "SyntaxError".data }) =
      .error ⟨true, Ollama.connectMessage⟩ ∧
    containsSub "500".data Ollama.connectMessage = false := by
  constructor
  · rfl
  · decide

/-- **C7 (amended).** The `callOllama` failure classification: a fetch-level
rejection whose message contains `'fetch'` is translated into the specific
unreachable-Ollama message; every thrown value that is not an `Error` whose
message contains `'fetch'` is re-thrown unchanged; and a non-success HTTP
status raises an error carrying the status, provided the composed status
message does not itself contain `'fetch'` (otherwise the fetch translation
captures it, as the counterexample shows). -/
theorem c7_unreachable_translation :
    (∀ msg : Str, containsSub "fetch".data msg = true →
      Ollama.callOllama (.reject ⟨true, msg⟩) =
        .error ⟨true, Ollama.connectMessage⟩) ∧
    (∀ (f : Ollama.FetchResult) (e : Ollama.Thrown),
      Ollama.tryBody f = .error e →
      (e.isError && containsSub "fetch".data e.message) = false →
      Ollama.callOllama f = .error e) ∧
    (∀ (status : Nat) (statusText : Str) (d : Ollama.ResponseData),
      containsSub "fetch".data (Ollama.statusMessage status statusText) = false →
      Ollama.callOllama (.resolve false status statusText d) =
        .error ⟨true, Ollama.statusMessage status statusText⟩) := by
  refine ⟨?_, ?_, ?_⟩
  · intro msg h
    simp [Ollama.callOllama, Ollama.tryBody, h]
  · intro f e he h
    simp [Ollama.callOllama, he, h]
  · intro status statusText d h
    have ht : Ollama.tryBody (.resolve false status statusText d) =
        .error ⟨true, Ollama.statusMessage status statusText⟩ := rfl
    simp [Ollama.callOllama, ht, h]

/-- Witness for the amended C7: a genuine fetch rejection is translated, a
plain 404 raises the status error, and an unrelated rejection is re-thrown
unchanged. -/
theorem c7_witness :
    Ollama.callOllama (.reject ⟨true, "Failed to fetch".data⟩) =
      .error ⟨true, Ollama.connectMessage⟩ ∧
    Ollama.callOllama (.resolve false 404 "Not Found".data
      { error := none, response := .error "x".data }) =
      .error ⟨true, Ollama.statusMessage 404 "Not Found".data⟩ ∧
    Ollama.callOllama (.reject ⟨true, "something else broke".data⟩) =
      .error ⟨true, "something else broke".data⟩ :=
  ⟨c7_unreachable_translation.1 _ (by decide),
   c7_unreachable_translation.2.2 404 _ _ (by decide),
   c7_unreachable_translation.2.1 _ _ rfl (by decide)⟩

/-- **C3.** In the structured-tool parser `runCode`: for every reply with no
code-execution-result part (so `stdout` and `stderr` are both still
undefined after the parts loop), if the text remaining after the text phase
is non-empty it is assigned to `stdout` as a fallback, unless a suggestion
was captured from the text, in which case `stdout` is left unset. -/
theorem c3_stdout_fallback (language : Str) (parts : List Gemini.Part)
    (h : parts.all (fun p => !p.isExecResult) = true) :
    ((Gemini.textPhase language (Gemini.collectParts parts).text).2.1 = none →
      (Gemini.textPhase language (Gemini.collectParts parts).text).2.2 ≠ [] →
      (Gemini.runCode language parts).stdout =
        some (Gemini.textPhase language (Gemini.collectParts parts).text).2.2) ∧
    ((Gemini.textPhase language (Gemini.collectParts parts).text).2.1 ≠ none →
      (Gemini.runCode language parts).stdout = none) := by
  obtain ⟨h1, h2⟩ := collectParts_no_exec parts h
  constructor
  · intro hs ht
    rcases hTP : Gemini.textPhase language (Gemini.collectParts parts).text with
      ⟨tr, sug, t1⟩
    rw [hTP] at hs ht
    simp only at hs ht
    simp [Gemini.runCode, hTP, h1, h2, hs, ht]
  · intro hs
    rcases hTP : Gemini.textPhase language (Gemini.collectParts parts).text with
      ⟨tr, sug, t1⟩
    rw [hTP] at hs
    simp only at hs
    simp [Gemini.runCode, hTP, h1, h2, hs]

/-- Witness for C3: a reply consisting of one plain text part ends up with
that text as `stdout`. -/
theorem c3_witness :
    (Gemini.runCode "python".data
      [Gemini.Part.text "it ran fine".data]).stdout = some "it ran fine".data :=
  (c3_stdout_fallback "python".data [Gemini.Part.text "it ran fine".data]
    (by decide)).1 (by decide) (by decide)

set_option maxRecDepth 10000 in
/-- **C1.** For the structured-tool (Gemini) parser `runCode`: whenever the
concatenated free text of the reply is some prefix followed by the literal
heading `### Test Results` and the block `Passed: 1/2\nPASS: a\nFAIL: b`
(the heading occurring there first), parsing yields `testResults` equal to
that block verbatim, and the fenced-code-block search for the suggestion
runs only over the remaining text (the trimmed prefix), from which the
test-results section has been removed. -/
theorem c1_testResults_extraction (language pre : Str) (parts : List Gemini.Part)
    (htext : (Gemini.collectParts parts).text =
      pre ++ Gemini.testResultsHeading ++ "\nPassed: 1/2\nPASS: a\nFAIL: b".data)
    (hfirst : findSub Gemini.testResultsHeading (Gemini.collectParts parts).text =
      some pre.length) :
    (Gemini.runCode language parts).testResults =
      some "Passed: 1/2\nPASS: a\nFAIL: b".data ∧
    (Gemini.runCode language parts).suggestion =
      Gemini.extractCodeBlock language (trimStr pre) := by
  rw [htext] at hfirst
  have hdrop : (pre ++ Gemini.testResultsHeading ++
      "\nPassed: 1/2\nPASS: a\nFAIL: b".data).drop
      (pre.length + Gemini.testResultsHeading.length) =
      "\nPassed: 1/2\nPASS: a\nFAIL: b".data := by
    rw [← List.length_append]
    exact List.drop_left _ _
  have htake : (pre ++ Gemini.testResultsHeading ++
      "\nPassed: 1/2\nPASS: a\nFAIL: b".data).take pre.length = pre := by
    rw [List.append_assoc]
    exact List.take_left _ _
  have hmatch : Gemini.matchTestResults (pre ++ Gemini.testResultsHeading ++
      "\nPassed: 1/2\nPASS: a\nFAIL: b".data) =
      some (pre, "Passed: 1/2\nPASS: a\nFAIL: b".data, []) := by
    simp only [Gemini.matchTestResults, hfirst, hdrop, htake]
    rfl
  have hlit : ("\nPassed: 1/2\nPASS: a\nFAIL: b".data : Str) ≠ [] := by decide
  have hne : (pre ++ Gemini.testResultsHeading ++
      "\nPassed: 1/2\nPASS: a\nFAIL: b".data).isEmpty = false := by
    simp [List.isEmpty_eq_false, List.append_eq_nil, hlit]
  have hb : (!("Passed: 1/2\nPASS: a\nFAIL: b".data : Str).isEmpty) = true := by decide
  have htrim : trimStr "Passed: 1/2\nPASS: a\nFAIL: b".data =
      "Passed: 1/2\nPASS: a\nFAIL: b".data := by decide
  have hphase : Gemini.textPhase language (pre ++ Gemini.testResultsHeading ++
      "\nPassed: 1/2\nPASS: a\nFAIL: b".data) =
      (some "Passed: 1/2\nPASS: a\nFAIL: b".data,
       Gemini.extractCodeBlock language (trimStr pre), trimStr pre) := by
    simp only [Gemini.textPhase, hne, Bool.false_eq_true, if_false, hmatch, hb, if_true,
      List.append_nil, htrim]
  constructor
  · simp only [Gemini.runCode, htext]
    rw [hphase]
  · simp only [Gemini.runCode, htext]
    rw [hphase]

set_option maxRecDepth 10000 in
/-- Witness for C1: a concrete reply whose free text is a short sentence
followed by the heading and the block; the block is extracted verbatim and
no suggestion is found in the remaining text. -/
theorem c1_witness :
    (Gemini.runCode "python".data [Gemini.Part.text
      "All good.\n### Test Results\nPassed: 1/2\nPASS: a\nFAIL: b".data]).testResults =
      some "Passed: 1/2\nPASS: a\nFAIL: b".data ∧
    (Gemini.runCode "python".data [Gemini.Part.text
      "All good.\n### Test Results\nPassed: 1/2\nPASS: a\nFAIL: b".data]).suggestion =
      none :=
  c1_testResults_extraction "python".data "All good.\n".data _ (by decide) (by decide)

end Analyzer
